import Mathlib

/-!
Verification of the concurrent grayscale line-following pipeline
(`picarx/concurrent.py`).

The embedding translates the module into Lean over exact rationals:

* Python floats are modelled as `ℚ`; the numeric literals of the source
  (`1e-6`, `1e-9`, `0.02`, ...) are carried over exactly.
* The thread-safe `Bus` is modelled by its stored message; `write` and
  `read` act on that state (the reader/writer lock is a concurrency
  artefact with no effect on the value read).
* `GrayscaleInterpreter.process` returns the published offset together
  with the interpreter after its baseline update (the only mutation it
  performs).
* `recover_reverse_until_line` is modelled as a loop over poll indices
  `n = 0, 1, 2, ...`; `stop_set n`, `get_vals n` and `times n` give the
  stop-event state, the grayscale reading, and the wall-clock time seen
  at poll `n` (`t0 = times 0` is the time recorded before the loop).
  The loop of the source has no static bound, so the model takes a fuel
  argument; the theorems show that 252 units of fuel always suffice.
  The hardware commands issued by the maneuver are collected in a list
  of `PxAction`s.
* The body of the while-loop of `controller_thread_fn` is modelled by
  `controller_iter`, returning the action taken for one consumed
  message (the `Picarx` handle itself is out of scope).
-/

abbrev Triple := ℚ × ℚ × ℚ

/-! Module constants (USER PARAMS block of the source). -/

def FWD_POWER : ℚ := 20
def REV_POWER : ℚ := 30
def MAX_ANGLE : ℚ := 30.0
def THRESH : ℚ := 850
def RECOVER_MAX_TIME : ℚ := 2.5
def RECOVER_DT : ℚ := 0.01
def RECOVER_STEER : ℚ := 0
def RESPONSE : ℚ := 1.0
def DAMPING : ℚ := 0.8
def SENSITIVITY : ℚ := 120
def POLARITY : String := "dark"
def DEADBAND : ℚ := 0.06
def ALPHA : ℚ := 0.30
def CONTROL_DT : ℚ := 0.02

/-- Python `str.lower()` restricted to the strings the module uses:
lowercase every character. -/
def pyLower (s : String) : String := ⟨s.data.map Char.toLower⟩

/-! The thread-safe latest-message `Bus`. -/

structure Bus (α : Type) where
  message : Option α

/-- Model of `Bus.write`: replaces the current message. -/
def Bus.write {α : Type} (b : Bus α) (msg : α) : Bus α :=
  { b with message := some msg }

/-- Model of `Bus.read`: returns the latest message (or `none` if nothing yet). -/
def Bus.read {α : Type} (b : Bus α) : Option α :=
  b.message

/-- State of the bus after a sequence of `write` calls. -/
def Bus.writeAll {α : Type} (b : Bus α) (msgs : List α) : Bus α :=
  msgs.foldl Bus.write b

/-! Message structures. -/

structure ADCMessage where
  t : ℚ
  vals : Triple

structure OffsetMessage where
  t : ℚ
  offset : Option ℚ

/-! The interpreter (`GrayscaleInterpreter`). -/

structure GrayscaleInterpreter where
  sensitivity : ℚ
  polarity : String
  auto_baseline : Bool
  alpha : ℚ
  baseline : Option Triple
  thresh : ℚ

/-- Constructor of the interpreter: stores the lowercased polarity and
raises `ValueError` (modelled as `Except.error`) when it is neither
"dark" nor "light". -/
def GrayscaleInterpreter.init (sensitivity : ℚ) (polarity : String) (auto_baseline : Bool)
    (alpha : ℚ) (thresh : ℚ) : Except String GrayscaleInterpreter :=
  let p := pyLower polarity
  if p = "dark" ∨ p = "light" then
    Except.ok
      { sensitivity := sensitivity, polarity := p, auto_baseline := auto_baseline,
        alpha := alpha, baseline := none, thresh := thresh }
  else
    Except.error ("polarity must be dark or light")

/-- The baseline update (`_update_baseline` in the source): first call stores the raw
reading, later calls blend it in with weight `alpha` per channel. -/
def GrayscaleInterpreter.update_baseline (i : GrayscaleInterpreter) (v : Triple) :
    GrayscaleInterpreter :=
  match i.baseline with
  | none => { i with baseline := some v }
  | some b =>
      { i with baseline := some ((1 - i.alpha) * b.1 + i.alpha * v.1,
          (1 - i.alpha) * b.2.1 + i.alpha * v.2.1,
          (1 - i.alpha) * b.2.2 + i.alpha * v.2.2) }

/-- The polarity-aware per-channel line strength computed inside
`GrayscaleInterpreter.process` (lines 170-177 of the source). -/
def GrayscaleInterpreter.strengths (i : GrayscaleInterpreter) (L M R : ℚ) : Triple :=
  if i.polarity = "dark" then
    (max 0 (i.thresh - L), max 0 (i.thresh - M), max 0 (i.thresh - R))
  else
    (max 0 (L - i.thresh), max 0 (M - i.thresh), max 0 (R - i.thresh))

/-- The `process` method: returns the published offset
(`none` = line lost) together with the interpreter after its baseline
update.  The early returns of the source become one if-chain. -/
def GrayscaleInterpreter.process (i : GrayscaleInterpreter) (vals : Triple) :
    Option ℚ × GrayscaleInterpreter :=
  let L := vals.1
  let M := vals.2.1
  let R := vals.2.2
  let i' := if i.auto_baseline then i.update_baseline (L, M, R) else i
  let dLM := |L - M|
  let dMR := |M - R|
  let s := i.strengths L M R
  let sL := s.1
  let sM := s.2.1
  let sR := s.2.2
  let total := sL + sM + sR
  let offset :=
    if total < 1e-6 ∧ ¬(max dLM dMR ≥ i.sensitivity) then none
    else if ¬(max dLM dMR ≥ i.sensitivity) ∧ max sL (max sM sR) < i.sensitivity then some (0 : ℚ)
    else
      let centroid := (-1 * sL + 0 * sM + 1 * sR) / (total + 1e-9)
      let o1 := if centroid > 1 then (1 : ℚ) else centroid
      let o2 := if o1 < -1 then (-1 : ℚ) else o1
      some o2
  (offset, i')

/-- The interpreter exactly as `run_level4_grayscale` constructs it:
sensitivity 120, polarity "dark", auto baseline, alpha 0.02, thresh 850. -/
def interpDefault : GrayscaleInterpreter :=
  { sensitivity := SENSITIVITY, polarity := POLARITY, auto_baseline := true,
    alpha := 0.02, baseline := none, thresh := THRESH }

/-! The PD controller. -/

structure PDController where
  max_angle : ℚ
  dt : ℚ
  Kp : ℚ
  Kd : ℚ
  prev_error : ℚ
  has_prev : Bool

/-- Constructor of the controller: derives `Kp = max_angle * response` and
`Kd = Kp * dt * damping` (the `Picarx` handle is out of scope). -/
def PDController.init (max_angle : ℚ) (dt : ℚ) (response : ℚ) (damping : ℚ) : PDController :=
  let Kp := max_angle * response
  { max_angle := max_angle, dt := dt, Kp := Kp, Kd := Kp * dt * damping,
    prev_error := 0, has_prev := false }

def PDController.reset (c : PDController) : PDController :=
  { c with prev_error := 0, has_prev := false }

/-- The `control` method: returns the commanded (clamped) angle, or
`none` for a `none` offset, together with the updated controller. -/
def PDController.control (c : PDController) (offset : Option ℚ) : Option ℚ × PDController :=
  match offset with
  | none => (none, c)
  | some off =>
      let e := off
      let p := if c.has_prev then ((e - c.prev_error) / c.dt, { c with prev_error := e })
        else ((0 : ℚ), { c with prev_error := e, has_prev := true })
      let de := p.1
      let c' := p.2
      let angle := c.Kp * e + c.Kd * de
      let a1 := if angle > c.max_angle then c.max_angle else angle
      let a2 := if a1 < -c.max_angle then -c.max_angle else a1
      (some a2, c')

/-! Recovery helpers. -/

/-- Recovery helper `line_seen_thresh`: the line counts as seen when any channel meets
the polarity condition against `THRESH`. -/
def line_seen_thresh (vals : Triple) : Prop :=
  if pyLower POLARITY = "dark" then
    vals.1 < THRESH ∨ vals.2.1 < THRESH ∨ vals.2.2 < THRESH
  else
    vals.1 > THRESH ∨ vals.2.1 > THRESH ∨ vals.2.2 > THRESH

instance (vals : Triple) : Decidable (line_seen_thresh vals) := by
  unfold line_seen_thresh
  infer_instance

/-- Hardware commands issued by the recovery maneuver. -/
inductive PxAction where
  | stop : PxAction
  | set_dir_servo_angle : ℚ → PxAction
  | backward : ℚ → PxAction

/-- How one run of the recovery poll loop ended. -/
inductive RecoverExit where
  | stopped : RecoverExit
  | line_seen : RecoverExit
  | timed_out : RecoverExit

/-- The poll loop of `recover_reverse_until_line`: at poll `n` it checks
the stop event, then whether the line is seen, then whether elapsed time
exceeds `RECOVER_MAX_TIME`; otherwise it sleeps `RECOVER_DT` and polls
again.  Returns the exit reason and the poll index at which it exited
(`none` if the fuel ran out first). -/
def recover_loop (stop_set : ℕ → Bool) (get_vals : ℕ → Triple) (times : ℕ → ℚ) (t0 : ℚ) :
    ℕ → ℕ → Option (RecoverExit × ℕ)
  | 0, _ => none
  | fuel + 1, n =>
    if stop_set n then some (RecoverExit.stopped, n)
    else if line_seen_thresh (get_vals n) then some (RecoverExit.line_seen, n)
    else if times n - t0 > RECOVER_MAX_TIME then some (RecoverExit.timed_out, n)
    else recover_loop stop_set get_vals times t0 fuel (n + 1)

/-- The recovery maneuver `recover_reverse_until_line`: stop, steer to `RECOVER_STEER`, drive
backward, run the poll loop, and stop again after the loop.  Returns the
issued hardware commands in order together with the loop exit. -/
def recover_reverse_until_line (stop_set : ℕ → Bool) (get_vals : ℕ → Triple)
    (times : ℕ → ℚ) (t0 : ℚ) (fuel : ℕ) : Option (List PxAction × RecoverExit × ℕ) :=
  match recover_loop stop_set get_vals times t0 fuel 0 with
  | some (ex, n) =>
      some ([PxAction.stop, PxAction.set_dir_servo_angle RECOVER_STEER,
        PxAction.backward REV_POWER, PxAction.stop], ex, n)
  | none => none

/-! The controller thread body. -/

/-- What one iteration of the loop of `controller_thread_fn` does with the
message it read from the offset bus. -/
inductive CtrlAction where
  | idle_stop : CtrlAction
  | recover : CtrlAction
  | stop_only : CtrlAction
  | drive : ℚ → CtrlAction

structure CtrlState where
  prev_offset : ℚ
  pd : PDController

/-- One iteration of the while-loop of `controller_thread_fn`: no
message means stop and wait; a lost offset triggers the recovery
maneuver and a controller reset; otherwise deadband, smoothing, PD
control and forward drive. -/
def controller_iter (st : CtrlState) (msg : Option OffsetMessage) : CtrlAction × CtrlState :=
  match msg with
  | none => (CtrlAction.idle_stop, st)
  | some m =>
    match m.offset with
    | none => (CtrlAction.recover, { prev_offset := 0, pd := st.pd.reset })
    | some off0 =>
      let off1 := if |off0| < DEADBAND then (0 : ℚ) else off0
      let off := ALPHA * off1 + (1 - ALPHA) * st.prev_offset
      let r := st.pd.control (some off)
      match r.1 with
      | none => (CtrlAction.stop_only, { prev_offset := off, pd := r.2 })
      | some a => (CtrlAction.drive a, { prev_offset := off, pd := r.2 })

/-! Helper lemmas. -/

lemma writeAll_read_getLast {α : Type} :
    ∀ (msgs : List α) (b : Bus α) (h : msgs ≠ []),
      (b.writeAll msgs).read = some (msgs.getLast h)
  | [_], _, _ => rfl
  | _ :: m2 :: ms, b, _ => writeAll_read_getLast (m2 :: ms) (b.write _) (List.cons_ne_nil m2 ms)

lemma convex_combination_between (a x y : ℚ) (h0 : 0 ≤ a) (h1 : a ≤ 1) :
    min x y ≤ (1 - a) * x + a * y ∧ (1 - a) * x + a * y ≤ max x y := by
  rcases le_total x y with h | h
  · rw [min_eq_left h, max_eq_right h]
    constructor <;> nlinarith
  · rw [min_eq_right h, max_eq_left h]
    constructor <;> nlinarith

/-! Claim theorems. -/

/-- Claim C1: whenever `GrayscaleInterpreter.process` publishes an
offset (any readings, any valid polarity, any sensitivity/threshold),
that offset lies in the closed interval [-1, 1]. -/
theorem process_offset_in_unit_interval (i : GrayscaleInterpreter) (v : Triple) (x : ℚ)
    (_hpol : i.polarity = "dark" ∨ i.polarity = "light")
    (hx : (i.process v).1 = some x) :
    -1 ≤ x ∧ x ≤ 1 := by
  simp only [GrayscaleInterpreter.process] at hx
  split at hx
  · exact Option.noConfusion hx
  · split at hx
    · simp only [Option.some.injEq] at hx
      subst hx
      norm_num
    · simp only [Option.some.injEq] at hx
      subst hx
      refine ⟨?_, ?_⟩ <;> split_ifs <;> linarith

theorem process_offset_in_unit_interval_witness :
    (interpDefault.polarity = "dark" ∨ interpDefault.polarity = "light") ∧
    (interpDefault.process (500, 500, 500)).1 = some 0 ∧ -1 ≤ (0 : ℚ) ∧ (0 : ℚ) ≤ 1 := by
  have h5 : (interpDefault.process (500, 500, 500)).1 = some 0 := by
    norm_num [GrayscaleInterpreter.process, GrayscaleInterpreter.strengths, interpDefault,
      SENSITIVITY, POLARITY, THRESH]
  obtain ⟨hl, hr⟩ :=
    process_offset_in_unit_interval interpDefault (500, 500, 500) 0 (Or.inl rfl) h5
  exact ⟨Or.inl rfl, h5, hl, hr⟩

/-- Claim C2: a `Bus` built with the default initial message reads as
`none` until the first `write`, and after any finite nonempty sequence
of writes `read` returns exactly the most recently written message. -/
theorem bus_last_write_wins {α : Type} (b : Bus α) (msgs : List α) :
    (Bus.mk (none : Option α)).read = none ∧
    ∀ h : msgs ≠ [], (b.writeAll msgs).read = some (msgs.getLast h) :=
  ⟨rfl, fun h => writeAll_read_getLast msgs b h⟩

theorem bus_last_write_wins_witness :
    (Bus.mk (none : Option ℕ)).read = none ∧
    ((Bus.mk (none : Option ℕ)).writeAll [1, 2, 3]).read = some 3 :=
  ⟨(bus_last_write_wins (Bus.mk (none : Option ℕ)) [1, 2, 3]).1,
    (bus_last_write_wins (Bus.mk (none : Option ℕ)) [1, 2, 3]).2 (by simp)⟩

/-- Claim C3: `process` publishes `none` (line lost) iff the total
polarity-aware strength is below the 1e-6 tolerance and no adjacent
edge reaches the sensitivity; in particular the default interpreter
loses the line on (1000, 1000, 1000), and the controller loop answers
a lost offset with the recovery maneuver. -/
theorem process_none_iff_line_lost :
    (∀ (i : GrayscaleInterpreter) (v : Triple),
        (i.process v).1 = none ↔
          ((i.strengths v.1 v.2.1 v.2.2).1 + (i.strengths v.1 v.2.1 v.2.2).2.1 +
              (i.strengths v.1 v.2.1 v.2.2).2.2 < 1e-6 ∧
            max |v.1 - v.2.1| |v.2.1 - v.2.2| < i.sensitivity)) ∧
    (interpDefault.process (1000, 1000, 1000)).1 = none ∧
    (∀ (st : CtrlState) (t : ℚ),
        (controller_iter st (some { t := t, offset := none })).1 = CtrlAction.recover) := by
  refine ⟨?_, ?_, ?_⟩
  · intro i v
    simp only [GrayscaleInterpreter.process]
    split
    next h => exact iff_of_true rfl ⟨h.1, not_le.mp h.2⟩
    next h =>
      split
      next h2 => exact iff_of_false (by simp) fun hc => h ⟨hc.1, not_le.mpr hc.2⟩
      next h2 => exact iff_of_false (by simp) fun hc => h ⟨hc.1, not_le.mpr hc.2⟩
  · norm_num [GrayscaleInterpreter.process, GrayscaleInterpreter.strengths, interpDefault,
      SENSITIVITY, POLARITY, THRESH]
  · intro st t
    rfl

/-- Claim C5, counterexample: on (200, 900, 900) the default
interpreter does NOT return exactly -1; the code divides by
`total + 1e-9`, so the centroid stays strictly above -1 and the clamp
never fires. -/
theorem process_left_edge_not_exactly_neg_one :
    (interpDefault.process (200, 900, 900)).1 ≠ some (-1) := by
  norm_num [GrayscaleInterpreter.process, GrayscaleInterpreter.strengths, interpDefault,
    SENSITIVITY, POLARITY, THRESH]

/-- Claim C5, amended: on (200, 900, 900) the strengths are (650, 0, 0),
the edge check passes, and the returned offset is the exact centroid
`-650 / (650 + 1e-9)`, which lies strictly between -1 and -1 + 1e-11
(approximately but not exactly -1; the clamp is not triggered). -/
theorem process_left_edge_near_neg_one :
    interpDefault.strengths 200 900 900 = (650, 0, 0) ∧
    max |(200 : ℚ) - 900| |(900 : ℚ) - 900| ≥ interpDefault.sensitivity ∧
    (interpDefault.process (200, 900, 900)).1 = some (-650 / (650 + 1e-9)) ∧
    -1 < (-650 / (650 + 1e-9) : ℚ) ∧ (-650 / (650 + 1e-9) : ℚ) < -1 + 1e-11 := by
  refine ⟨?_, ?_, ?_, ?_, ?_⟩ <;>
    norm_num [GrayscaleInterpreter.process, GrayscaleInterpreter.strengths, interpDefault,
      SENSITIVITY, POLARITY, THRESH]

/-- Claim C6: on (500, 500, 500) all strengths are 350, the edge check
fails, the centered anti-jitter branch is skipped because
`max strength = 350 ≥ sensitivity`, and the published offset is the
computed centroid 0. -/
theorem process_uniform_midgray_centered :
    interpDefault.strengths 500 500 500 = (350, 350, 350) ∧
    max |(500 : ℚ) - 500| |(500 : ℚ) - 500| < interpDefault.sensitivity ∧
    max (350 : ℚ) (max 350 350) ≥ interpDefault.sensitivity ∧
    (interpDefault.process (500, 500, 500)).1 = some 0 := by
  refine ⟨?_, ?_, ?_, ?_⟩ <;>
    norm_num [GrayscaleInterpreter.process, GrayscaleInterpreter.strengths, interpDefault,
      SENSITIVITY, POLARITY, THRESH]

/-- Claim C8: the PD gains are derived deterministically as
`Kp = max_angle * response` and `Kd = Kp * dt * damping`; at the
documented configuration this gives Kp = 30 and Kd = 0.48. -/
theorem pd_gain_derivation :
    (∀ max_angle dt response damping : ℚ,
        (PDController.init max_angle dt response damping).Kp = max_angle * response ∧
        (PDController.init max_angle dt response damping).Kd =
          max_angle * response * dt * damping) ∧
    (PDController.init 30 0.02 1.0 0.8).Kp = 30.0 ∧
    (PDController.init 30 0.02 1.0 0.8).Kd = 0.48 := by
  refine ⟨fun ma dt r d => ⟨rfl, rfl⟩, ?_, ?_⟩ <;> norm_num [PDController.init]

/-- Claim C10: the offset published by `process` does not depend on the
baseline state or the `auto_baseline` flag: interpreters agreeing on
sensitivity, polarity and threshold produce identical offsets on every
input. -/
theorem process_offset_ignores_baseline (i1 i2 : GrayscaleInterpreter) (v : Triple)
    (hs : i1.sensitivity = i2.sensitivity) (hp : i1.polarity = i2.polarity)
    (ht : i1.thresh = i2.thresh) :
    (i1.process v).1 = (i2.process v).1 := by
  simp only [GrayscaleInterpreter.process, GrayscaleInterpreter.strengths]
  rw [hs, hp, ht]

def interpNoBaseline : GrayscaleInterpreter :=
  { sensitivity := SENSITIVITY, polarity := POLARITY, auto_baseline := false,
    alpha := 0.5, baseline := some (100, 200, 300), thresh := THRESH }

theorem process_offset_ignores_baseline_witness :
    (interpDefault.process (400, 600, 800)).1 = (interpNoBaseline.process (400, 600, 800)).1 :=
  process_offset_ignores_baseline interpDefault interpNoBaseline (400, 600, 800) rfl rfl rfl

/-- Claim C7: constructing a `GrayscaleInterpreter` fails with the
invalid-configuration error exactly when the lowercased polarity is
neither "dark" nor "light"; any successful construction stores a
recognized polarity, so the dark/light dichotomy inside `process` is
exhaustive and no polarity error can arise at run time (in the model,
`process` is a total function). -/
theorem init_polarity_check :
    (∀ (s : ℚ) (p : String) (ab : Bool) (a t : ℚ),
        (∃ e, GrayscaleInterpreter.init s p ab a t = Except.error e) ↔
          (pyLower p ≠ "dark" ∧ pyLower p ≠ "light")) ∧
    (∀ (s : ℚ) (p : String) (ab : Bool) (a t : ℚ) (i : GrayscaleInterpreter),
        GrayscaleInterpreter.init s p ab a t = Except.ok i →
          (i.polarity = "dark" ∨ i.polarity = "light")) := by
  constructor
  · intro s p ab a t
    simp only [GrayscaleInterpreter.init]
    split
    next h =>
      refine iff_of_false ?_ ?_
      · rintro ⟨e, he⟩
        exact Except.noConfusion he
      · rintro ⟨h1, h2⟩
        rcases h with h | h
        exacts [h1 h, h2 h]
    next h =>
      push_neg at h
      exact iff_of_true ⟨_, rfl⟩ h
  · intro s p ab a t i h
    simp only [GrayscaleInterpreter.init] at h
    split at h
    next hcond =>
      simp only [Except.ok.injEq] at h
      subst h
      exact hcond
    next hcond =>
      exact Except.noConfusion h

theorem init_polarity_check_witness :
    interpDefault.polarity = "dark" ∨ interpDefault.polarity = "light" :=
  init_polarity_check.2 120 ("DARK") true 0.02 850 interpDefault (by
    have hlow : pyLower ("DARK") = "dark" := by decide
    norm_num [GrayscaleInterpreter.init, hlow, interpDefault, SENSITIVITY, POLARITY, THRESH])

/-- Claim C9: for a smoothing factor between 0 and 1, the first call to
`_update_baseline` stores the reading itself, and every later call sets
each channel to the convex combination `(1-alpha)*old + alpha*reading`,
which lies between the old baseline value and the reading (so baselines
move monotonically toward the readings and stay finite — in `ℚ` every
value is finite). -/
theorem update_baseline_convex (i : GrayscaleInterpreter) (v : Triple)
    (h0 : 0 ≤ i.alpha) (h1 : i.alpha ≤ 1) :
    (i.baseline = none → (i.update_baseline v).baseline = some v) ∧
    ∀ b, i.baseline = some b →
      (i.update_baseline v).baseline = some ((1 - i.alpha) * b.1 + i.alpha * v.1,
        (1 - i.alpha) * b.2.1 + i.alpha * v.2.1,
        (1 - i.alpha) * b.2.2 + i.alpha * v.2.2) ∧
      (min b.1 v.1 ≤ (1 - i.alpha) * b.1 + i.alpha * v.1 ∧
        (1 - i.alpha) * b.1 + i.alpha * v.1 ≤ max b.1 v.1) ∧
      (min b.2.1 v.2.1 ≤ (1 - i.alpha) * b.2.1 + i.alpha * v.2.1 ∧
        (1 - i.alpha) * b.2.1 + i.alpha * v.2.1 ≤ max b.2.1 v.2.1) ∧
      (min b.2.2 v.2.2 ≤ (1 - i.alpha) * b.2.2 + i.alpha * v.2.2 ∧
        (1 - i.alpha) * b.2.2 + i.alpha * v.2.2 ≤ max b.2.2 v.2.2) := by
  constructor
  · intro h
    simp [GrayscaleInterpreter.update_baseline, h]
  · intro b hb
    refine ⟨by simp [GrayscaleInterpreter.update_baseline, hb], ?_, ?_, ?_⟩ <;>
      exact convex_combination_between _ _ _ h0 h1

def interpHalf : GrayscaleInterpreter :=
  { sensitivity := 120, polarity := "dark", auto_baseline := true, alpha := 1 / 2,
    baseline := some (0, 10, 4), thresh := 850 }

theorem update_baseline_convex_witness :
    (interpHalf.baseline = none → (interpHalf.update_baseline (8, 2, 4)).baseline = some (8, 2, 4)) ∧
    ∀ b, interpHalf.baseline = some b →
      (interpHalf.update_baseline (8, 2, 4)).baseline =
        some ((1 - interpHalf.alpha) * b.1 + interpHalf.alpha * 8,
          (1 - interpHalf.alpha) * b.2.1 + interpHalf.alpha * 2,
          (1 - interpHalf.alpha) * b.2.2 + interpHalf.alpha * 4) ∧
      (min b.1 8 ≤ (1 - interpHalf.alpha) * b.1 + interpHalf.alpha * 8 ∧
        (1 - interpHalf.alpha) * b.1 + interpHalf.alpha * 8 ≤ max b.1 8) ∧
      (min b.2.1 2 ≤ (1 - interpHalf.alpha) * b.2.1 + interpHalf.alpha * 2 ∧
        (1 - interpHalf.alpha) * b.2.1 + interpHalf.alpha * 2 ≤ max b.2.1 2) ∧
      (min b.2.2 4 ≤ (1 - interpHalf.alpha) * b.2.2 + interpHalf.alpha * 4 ∧
        (1 - interpHalf.alpha) * b.2.2 + interpHalf.alpha * 4 ≤ max b.2.2 4) :=
  update_baseline_convex interpHalf (8, 2, 4) (by norm_num [interpHalf]) (by norm_num [interpHalf])

/-! Lemmas about the recovery poll loop. -/

lemma recover_loop_progress (stop_set : ℕ → Bool) (get_vals : ℕ → Triple)
    (times : ℕ → ℚ) (t0 : ℚ) (ht : ∀ n, times n = t0 + n * RECOVER_DT) :
    ∀ k n, 251 ≤ n + k →
      (recover_loop stop_set get_vals times t0 (k + 1) n).isSome = true := by
  intro k
  induction k with
  | zero =>
    intro n hn
    simp only [recover_loop]
    split
    · simp
    · split
      · simp
      · split
        · simp
        · next h3 =>
          exfalso
          apply h3
          rw [ht n]
          have hc : (251 : ℚ) ≤ (n : ℚ) := by exact_mod_cast (by omega : 251 ≤ n)
          rw [RECOVER_DT, RECOVER_MAX_TIME]
          norm_num
          linarith
  | succ k ih =>
    intro n hn
    simp only [recover_loop]
    split
    · simp
    · split
      · simp
      · split
        · simp
        · exact ih (n + 1) (by omega)

lemma recover_loop_exit_facts (stop_set : ℕ → Bool) (get_vals : ℕ → Triple)
    (times : ℕ → ℚ) (t0 : ℚ) :
    ∀ fuel n ex m, recover_loop stop_set get_vals times t0 fuel n = some (ex, m) →
      n ≤ m ∧ (m = n ∨ ¬(times (m - 1) - t0 > RECOVER_MAX_TIME)) ∧
      (ex = RecoverExit.stopped → stop_set m = true) ∧
      (ex = RecoverExit.line_seen → line_seen_thresh (get_vals m)) ∧
      (ex = RecoverExit.timed_out → times m - t0 > RECOVER_MAX_TIME) := by
  intro fuel
  induction fuel with
  | zero =>
    intro n ex m h
    exact Option.noConfusion h
  | succ fuel ih =>
    intro n ex m h
    simp only [recover_loop] at h
    split at h
    next h1 =>
      simp only [Option.some.injEq, Prod.mk.injEq] at h
      obtain ⟨rfl, rfl⟩ := h
      refine ⟨le_refl _, Or.inl rfl, fun _ => h1, ?_, ?_⟩
      · intro hq
        exact RecoverExit.noConfusion hq
      · intro hq
        exact RecoverExit.noConfusion hq
    next h1 =>
      split at h
      next h2 =>
        simp only [Option.some.injEq, Prod.mk.injEq] at h
        obtain ⟨rfl, rfl⟩ := h
        refine ⟨le_refl _, Or.inl rfl, ?_, fun _ => h2, ?_⟩
        · intro hq
          exact RecoverExit.noConfusion hq
        · intro hq
          exact RecoverExit.noConfusion hq
      next h2 =>
        split at h
        next h3 =>
          simp only [Option.some.injEq, Prod.mk.injEq] at h
          obtain ⟨rfl, rfl⟩ := h
          refine ⟨le_refl _, Or.inl rfl, ?_, ?_, fun _ => h3⟩
          · intro hq
            exact RecoverExit.noConfusion hq
          · intro hq
            exact RecoverExit.noConfusion hq
        next h3 =>
          obtain ⟨hnm, hb, hs, hl, hto⟩ := ih (n + 1) ex m h
          refine ⟨by omega, ?_, hs, hl, hto⟩
          rcases hb with rfl | hb
          · right
            simpa using h3
          · exact Or.inr hb

/-- Claim C4, counterexample: with nominal poll timing (poll `n` at
`t0 + n * RECOVER_DT`), the stop event never set and readings that
never reacquire the line, the poll loop exits with a timeout at poll
251, i.e. at elapsed time `251 * RECOVER_DT = 2.51` — strictly AFTER
`RECOVER_MAX_TIME = 2.5`.  The loop can only observe the deadline on
the first poll after it has already passed, so when recovery times out
control never returns "at or before t0 + RECOVER_MAX_TIME". -/
theorem recover_deadline_overshoot :
    recover_reverse_until_line (fun _ => false) (fun _ => (1000, 1000, 1000))
        (fun n => 0 + n * RECOVER_DT) 0 252 =
      some ([PxAction.stop, PxAction.set_dir_servo_angle RECOVER_STEER,
        PxAction.backward REV_POWER, PxAction.stop], RecoverExit.timed_out, 251) ∧
    (0 : ℚ) + 251 * RECOVER_DT > 0 + RECOVER_MAX_TIME := by
  have hseen : ∀ n : ℕ, ¬ line_seen_thresh ((fun _ => ((1000 : ℚ), 1000, 1000)) n) := by
    intro n
    have hp : pyLower POLARITY = "dark" := by decide
    unfold line_seen_thresh
    rw [if_pos hp]
    rw [THRESH]
    norm_num
  have hloop : ∀ k n : ℕ, n + k = 251 →
      recover_loop (fun _ => false) (fun _ => (1000, 1000, 1000))
        (fun n => 0 + n * RECOVER_DT) 0 (k + 1) n = some (RecoverExit.timed_out, 251) := by
    intro k
    induction k with
    | zero =>
      intro n h
      have hn : n = 251 := by omega
      subst hn
      simp only [recover_loop]
      split
      next hq => simp at hq
      next =>
        split
        next hq => exact absurd hq (hseen 251)
        next =>
          split
          next => rfl
          next hq =>
            exfalso
            apply hq
            norm_num [RECOVER_DT, RECOVER_MAX_TIME]
    | succ k ih =>
      intro n h
      have hn : n ≤ 250 := by omega
      simp only [recover_loop]
      split
      next hq => simp at hq
      next =>
        split
        next hq => exact absurd hq (hseen n)
        next =>
          split
          next hq =>
            exfalso
            have hc : (n : ℚ) ≤ 250 := by exact_mod_cast hn
            rw [RECOVER_DT, RECOVER_MAX_TIME] at hq
            norm_num at hq
            linarith
          next => exact ih (n + 1) (by omega)
  constructor
  · unfold recover_reverse_until_line
    rw [show (252 : ℕ) = 251 + 1 from rfl, hloop 251 0 (by omega)]
  · rw [RECOVER_DT, RECOVER_MAX_TIME]
    norm_num

/-- Claim C4, amended: under nominal poll timing (poll `n` at
`t0 + n * RECOVER_DT`) the recovery poll loop always terminates within
252 polls: it exits because the stop event was observed set, because
the polled reading shows the line reacquired, or because elapsed time
was observed to exceed `RECOVER_MAX_TIME`; the exit poll happens at or
before `t0 + RECOVER_MAX_TIME + RECOVER_DT` — the first poll after the
deadline, NOT `t0 + RECOVER_MAX_TIME` itself — and in every case a
`stop()` call is issued after the loop, as the last command before
control returns. -/
theorem recover_terminates_and_stops (stop_set : ℕ → Bool) (get_vals : ℕ → Triple)
    (times : ℕ → ℚ) (t0 : ℚ) (ht : ∀ n, times n = t0 + n * RECOVER_DT) :
    ∃ acts ex m, recover_reverse_until_line stop_set get_vals times t0 252 = some (acts, ex, m) ∧
      acts.getLast? = some PxAction.stop ∧
      times m ≤ t0 + RECOVER_MAX_TIME + RECOVER_DT ∧
      (ex = RecoverExit.stopped → stop_set m = true) ∧
      (ex = RecoverExit.line_seen → line_seen_thresh (get_vals m)) ∧
      (ex = RecoverExit.timed_out → times m - t0 > RECOVER_MAX_TIME) := by
  have hsome := recover_loop_progress stop_set get_vals times t0 ht 251 0 (by omega)
  rw [show (251 : ℕ) + 1 = 252 from rfl] at hsome
  obtain ⟨r, hr⟩ := Option.isSome_iff_exists.mp hsome
  obtain ⟨ex, m⟩ := r
  obtain ⟨hnm, hbound, hstop, hline, htime⟩ :=
    recover_loop_exit_facts stop_set get_vals times t0 252 0 ex m hr
  refine ⟨[PxAction.stop, PxAction.set_dir_servo_angle RECOVER_STEER,
    PxAction.backward REV_POWER, PxAction.stop], ex, m, ?_, rfl, ?_, hstop, hline, htime⟩
  · unfold recover_reverse_until_line
    rw [hr]
  · rcases hbound with rfl | hb
    · rw [ht 0]
      rw [RECOVER_DT, RECOVER_MAX_TIME]
      norm_num
      linarith
    · rcases Nat.eq_zero_or_pos m with rfl | hm
      · rw [ht 0]
        rw [RECOVER_DT, RECOVER_MAX_TIME]
        norm_num
        linarith
      · push_neg at hb
        rw [ht (m - 1)] at hb
        rw [ht m]
        have hc : ((m - 1 : ℕ) : ℚ) = (m : ℚ) - 1 := by
          push_cast [Nat.one_le_iff_ne_zero.mpr (Nat.pos_iff_ne_zero.mp hm)]
          ring
        rw [hc] at hb
        rw [RECOVER_DT, RECOVER_MAX_TIME] at hb ⊢
        norm_num at hb ⊢
        linarith

theorem recover_terminates_and_stops_witness :
    ∃ acts ex m, recover_reverse_until_line (fun _ => true) (fun _ => (0, 0, 0))
        (fun n => 3 + n * RECOVER_DT) 3 252 = some (acts, ex, m) ∧
      acts.getLast? = some PxAction.stop ∧
      3 + (m : ℚ) * RECOVER_DT ≤ 3 + RECOVER_MAX_TIME + RECOVER_DT ∧
      (ex = RecoverExit.stopped → (fun _ : ℕ => true) m = true) ∧
      (ex = RecoverExit.line_seen → line_seen_thresh ((fun _ : ℕ => ((0 : ℚ), 0, 0)) m)) ∧
      (ex = RecoverExit.timed_out → 3 + (m : ℚ) * RECOVER_DT - 3 > RECOVER_MAX_TIME) :=
  recover_terminates_and_stops (fun _ => true) (fun _ => ((0 : ℚ), 0, 0))
    (fun n => 3 + n * RECOVER_DT) 3 (fun _ => rfl)
